import Mathlib

/-!
Verification development for the RegNet design-space generator of
src/mindcv/models/regnet.py: the quantized width generator, the
group-compatibility adjustment, the block/stem vocabulary, the network
assembler, and the shadow complexity accountant.

Numeric conventions of the embedding: Python ints are modelled as ℤ (or ℕ for
counts, kernel sizes and strides), Python floats that hold exact decimal
values are modelled as ℚ (or ℝ where the source applies logarithms and real
powers).  Python `int(x)` is truncation toward zero, `round(x)` and
`np.round(x)` round half to even; both are modelled exactly on ℚ / ℝ.
Python assert failures are modelled as `Except` errors.
-/

unseal Rat.mul Rat.add Rat.sub Rat.inv

namespace RegNetSpec

/-- Truncation toward zero on exact rationals, the behaviour of Python `int()`
applied to a float value. -/
def pytrunc (q : ℚ) : ℤ := if 0 ≤ q then ⌊q⌋ else -⌊-q⌋

/-- Round half to even on exact rationals, the rounding used by Python
`round` and by `np.round`. -/
def rhe (q : ℚ) : ℤ :=
  if q - ⌊q⌋ < 1 / 2 then ⌊q⌋
  else if 1 / 2 < q - ⌊q⌋ then ⌊q⌋ + 1
  else if ⌊q⌋ % 2 = 0 then ⌊q⌋ else ⌊q⌋ + 1

theorem pytrunc_of_nonneg {q : ℚ} (h : 0 ≤ q) : pytrunc q = ⌊q⌋ := if_pos h

theorem pytrunc_intCast (n : ℤ) : pytrunc (n : ℚ) = n := by
  unfold pytrunc
  split
  · exact Int.floor_intCast n
  · rw [← Int.cast_neg, Int.floor_intCast, neg_neg]

theorem rhe_intCast (n : ℤ) : rhe (n : ℚ) = n := by
  unfold rhe
  rw [Int.floor_intCast]
  norm_num

/-- Error taxonomy of the source: one constructor per assert site
(`InvalidDesignSpace` for the generate_regnet asserts, `InvalidBlockConfig`
for the input asserts of adjust_block_compatibility,
`BlockCompatibilityError` for its final assert, and the two vocabulary-lookup
asserts). -/
inductive RegNetError where
  | InvalidDesignSpace : RegNetError
  | InvalidBlockConfig : RegNetError
  | BlockCompatibilityError : RegNetError
  | UnknownStemKind : String → RegNetError
  | UnknownBlockKind : String → RegNetError
  deriving DecidableEq

instance {ε α : Type} [DecidableEq ε] [DecidableEq α] : DecidableEq (Except ε α) := fun x y =>
  match x, y with
  | .ok a, .ok b => decidable_of_iff (a = b) (by simp)
  | .error a, .error b => decidable_of_iff (a = b) (by simp)
  | .ok _, .error _ => isFalse (by simp)
  | .error _, .ok _ => isFalse (by simp)

/- ------------------- adjust_block_compatibility (lines 130-141) ------------------- -/

/-- Per-stage body of `vs = [int(max(1, w * b)) for w, b in zip(ws, bs)]`. -/
def stage_v (w : ℤ) (b : ℚ) : ℤ := pytrunc (max 1 ((w : ℚ) * b))

/-- Per-stage body of `gs = [int(min(g, v)) for g, v in zip(gs, vs)]`. -/
def stage_g (g v : ℤ) : ℤ := min g v

/-- Per-stage body of `ms = [np.lcm(g, int(b)) if b > 1 else g for g, b in zip(gs, bs)]`. -/
def stage_m (g : ℤ) (b : ℚ) : ℤ := if 1 < b then ((Int.lcm g (pytrunc b) : ℕ) : ℤ) else g

/-- Per-stage body of `vs = [max(m, int(round(v / m) * m)) for v, m in zip(vs, ms)]`. -/
def stage_v' (v m : ℤ) : ℤ := max m (rhe ((v : ℚ) / (m : ℚ)) * m)

/-- Per-stage body of `ws = [int(v / b) for v, b in zip(vs, bs)]`. -/
def stage_w (v : ℤ) (b : ℚ) : ℤ := pytrunc ((v : ℚ) / b)

/-- Intermediate bottleneck widths of adjust_block_compatibility:
`vs = [int(max(1, w * b)) for w, b in zip(ws, bs)]`. -/
def bottleneck_vs (ws : List ℤ) (bs : List ℚ) : List ℤ :=
  List.zipWith stage_v ws bs

/-- Adjusted group widths: `gs = [int(min(g, v)) for g, v in zip(gs, vs)]`. -/
def gs_adj (ws : List ℤ) (bs : List ℚ) (gs : List ℤ) : List ℤ :=
  List.zipWith stage_g gs (bottleneck_vs ws bs)

/-- Adjustment moduli:
`ms = [np.lcm(g, int(b)) if b > 1 else g for g, b in zip(gs, bs)]`,
with gs already replaced by the adjusted group widths. -/
def ms_adj (ws : List ℤ) (bs : List ℚ) (gs : List ℤ) : List ℤ :=
  List.zipWith stage_m (gs_adj ws bs gs) bs

/-- Adjusted bottleneck widths:
`vs = [max(m, int(round(v / m) * m)) for v, m in zip(vs, ms)]`. -/
def vs_adj (ws : List ℤ) (bs : List ℚ) (gs : List ℤ) : List ℤ :=
  List.zipWith stage_v' (bottleneck_vs ws bs) (ms_adj ws bs gs)

/-- Adjusted widths: `ws = [int(v / b) for v, b in zip(vs, bs)]`, with vs the
adjusted bottleneck widths. -/
def ws_adj (ws : List ℤ) (bs : List ℚ) (gs : List ℤ) : List ℤ :=
  List.zipWith stage_w (vs_adj ws bs gs) bs

/-- Zipped positivity assertion of adjust_block_compatibility:
`all(w > 0 and b > 0 and g > 0 for w, b, g in zip(ws, bs, gs))`. -/
def allPos : List ℤ → List ℚ → List ℤ → Bool
  | w :: ws, b :: bs, g :: gs =>
      (decide (0 < w) && decide (0 < b) && decide (0 < g)) && allPos ws bs gs
  | _, _, _ => true

/-- Final divisibility assertion:
`all(w * b % g == 0 for w, b, g in zip(ws, bs, gs))`.  On exact values
`w * b % g == 0` holds iff `w * b / g` is an integer; g is positive whenever
this check is reached. -/
def allCompat : List ℤ → List ℚ → List ℤ → Bool
  | w :: ws, b :: bs, g :: gs =>
      decide ((((w : ℚ) * b) / (g : ℚ)).den = 1) && allCompat ws bs gs
  | _, _, _ => true

/-- Shallow embedding of `adjust_block_compatibility(ws, bs, gs)`
(regnet.py lines 130-141).  The leading asserts (length agreement, positivity,
and `b < 1 or b % 1 == 0`, i.e. each ratio below one or integral) map to
`InvalidBlockConfig`; the trailing defensive assert maps to
`BlockCompatibilityError`; otherwise the adjusted triple is returned with the
ratios passed through unchanged. -/
def adjust_block_compatibility (ws : List ℤ) (bs : List ℚ) (gs : List ℤ) :
    Except RegNetError (List ℤ × List ℚ × List ℤ) :=
  if ¬(ws.length = bs.length ∧ bs.length = gs.length) then .error .InvalidBlockConfig
  else if ¬(allPos ws bs gs = true) then .error .InvalidBlockConfig
  else if ¬(bs.all (fun b => decide (b < 1) || decide (b.den = 1)) = true) then
    .error .InvalidBlockConfig
  else if allCompat (ws_adj ws bs gs) bs (gs_adj ws bs gs) = true then
    .ok (ws_adj ws bs gs, bs, gs_adj ws bs gs)
  else .error .BlockCompatibilityError

/- ---------------- Arithmetic facts about the per-stage adjustment ---------------- -/

theorem stage_v_eq (w : ℤ) (b : ℚ) : stage_v w b = max 1 ⌊(w : ℚ) * b⌋ := by
  unfold stage_v
  rw [pytrunc_of_nonneg (le_trans zero_le_one (le_max_left 1 _))]
  rcases le_total ((w : ℚ) * b) 1 with h | h
  · rw [max_eq_left h, max_eq_left (le_trans (Int.floor_le_floor h) (le_of_eq Int.floor_one))]
    exact Int.floor_one
  · rw [max_eq_right h, max_eq_right (Int.le_floor.mpr (by exact_mod_cast h))]

theorem stage_v_pos (w : ℤ) (b : ℚ) : 1 ≤ stage_v w b := by
  rw [stage_v_eq]
  exact le_max_left 1 _

theorem stage_g_le (g v : ℤ) : stage_g g v ≤ g := min_le_left g v

theorem stage_g_pos {g v : ℤ} (hg : 0 < g) (hv : 0 < v) : 0 < stage_g g v := lt_min hg hv

theorem pytrunc_pos_of_one_lt {b : ℚ} (hb : 1 < b) : 0 < pytrunc b := by
  rw [pytrunc_of_nonneg (le_of_lt (lt_trans one_pos hb))]
  have h1 : (1 : ℤ) ≤ ⌊b⌋ := Int.le_floor.mpr (by exact_mod_cast le_of_lt hb)
  omega

theorem stage_m_pos {g : ℤ} (b : ℚ) (hg : 0 < g) : 0 < stage_m g b := by
  rcases lt_or_le 1 b with hb | hb
  · simp only [stage_m, if_pos hb]
    have h1 : pytrunc b ≠ 0 := by have := pytrunc_pos_of_one_lt hb; omega
    have h2 : g ≠ 0 := by omega
    have h3 : 0 < Int.lcm g (pytrunc b) := Nat.pos_of_ne_zero (Int.lcm_ne_zero h2 h1)
    exact_mod_cast h3
  · simp only [stage_m, if_neg (not_lt.mpr hb)]
    exact hg

theorem stage_v'_spec (v m : ℤ) (hm : 0 < m) : ∃ r : ℤ, 1 ≤ r ∧ stage_v' v m = r * m := by
  simp only [stage_v']
  rcases le_total (rhe ((v : ℚ) / (m : ℚ))) 1 with h | h
  · exact ⟨1, le_refl 1, by rw [one_mul, max_eq_left (mul_le_of_le_one_left (le_of_lt hm) h)]⟩
  · exact ⟨rhe ((v : ℚ) / (m : ℚ)), h,
      by rw [max_eq_right (le_mul_of_one_le_left (le_of_lt hm) h)]⟩

theorem stage_v'_ge (v m : ℤ) : m ≤ stage_v' v m := le_max_left m _

theorem int_div_den_one {a c : ℤ} (h : c ∣ a) (hc : c ≠ 0) : ((a : ℚ) / (c : ℚ)).den = 1 := by
  obtain ⟨k, rfl⟩ := h
  have hc' : (c : ℚ) ≠ 0 := Int.cast_ne_zero.mpr hc
  rw [Int.cast_mul, mul_div_cancel_left₀ _ hc']
  exact Rat.den_intCast k

theorem stage_w_intCast (v' n : ℤ) (hn : 1 ≤ n) (hdvd : n ∣ v') :
    ∃ k : ℤ, v' = n * k ∧ stage_w v' ((n : ℤ) : ℚ) = k := by
  obtain ⟨k, rfl⟩ := hdvd
  refine ⟨k, rfl, ?_⟩
  have hn0 : ((n : ℤ) : ℚ) ≠ 0 := Int.cast_ne_zero.mpr (by omega)
  simp only [stage_w]
  rw [Int.cast_mul, mul_div_cancel_left₀ _ hn0, pytrunc_intCast]

theorem stage_w_pos_of_le_one {v' : ℤ} {b : ℚ} (hb : 0 < b) (hb1 : b ≤ 1) (hv' : 1 ≤ v') :
    1 ≤ stage_w v' b := by
  simp only [stage_w]
  have hv0 : (0 : ℚ) ≤ (v' : ℚ) := by exact_mod_cast le_trans zero_le_one hv'
  rw [pytrunc_of_nonneg (div_nonneg hv0 (le_of_lt hb))]
  refine Int.le_floor.mpr ?_
  rw [show ((1 : ℤ) : ℚ) = 1 by norm_num, le_div_iff₀ hb, one_mul]
  exact le_trans hb1 (by exact_mod_cast hv')

theorem stage_int_facts (w g n : ℤ) (hg : 0 < g) (hn : 1 ≤ n) :
    ((stage_w (stage_v' (stage_v w (n : ℚ)) (stage_m (stage_g g (stage_v w (n : ℚ))) (n : ℚ)))
        (n : ℚ) : ℚ) * (n : ℚ)
      = (stage_v' (stage_v w (n : ℚ)) (stage_m (stage_g g (stage_v w (n : ℚ))) (n : ℚ)) : ℚ))
    ∧ stage_g g (stage_v w (n : ℚ))
        ∣ stage_v' (stage_v w (n : ℚ)) (stage_m (stage_g g (stage_v w (n : ℚ))) (n : ℚ))
    ∧ 1 ≤ stage_w (stage_v' (stage_v w (n : ℚ)) (stage_m (stage_g g (stage_v w (n : ℚ))) (n : ℚ)))
        (n : ℚ) := by
  set v := stage_v w (n : ℚ) with hv
  set g' := stage_g g v with hg'def
  set m := stage_m g' (n : ℚ) with hmdef
  have hvpos : 1 ≤ v := stage_v_pos w (n : ℚ)
  have hg'pos : 0 < g' := stage_g_pos hg (by omega)
  have hmpos : 0 < m := stage_m_pos (n : ℚ) hg'pos
  have hdvd : n ∣ m ∧ g' ∣ m := by
    rcases lt_or_le 1 n with h1 | h1
    · have h1q : (1 : ℚ) < (n : ℚ) := by exact_mod_cast h1
      rw [hmdef]
      simp only [stage_m, if_pos h1q, pytrunc_intCast]
      exact ⟨Int.dvd_lcm_right, Int.dvd_lcm_left⟩
    · have hn1 : n = 1 := le_antisymm h1 hn
      have h1q : ¬((1 : ℚ) < (n : ℚ)) := by rw [hn1]; norm_num
      rw [hmdef]
      simp only [stage_m, if_neg h1q]
      exact ⟨hn1 ▸ one_dvd g', dvd_refl g'⟩
  obtain ⟨r, hr1, hrm⟩ := stage_v'_spec v m hmpos
  have hmv' : m ∣ stage_v' v m := hrm ▸ Dvd.intro_left r rfl
  have hnv' : n ∣ stage_v' v m := dvd_trans hdvd.1 hmv'
  have hgv' : g' ∣ stage_v' v m := dvd_trans hdvd.2 hmv'
  obtain ⟨k, hk, hwk⟩ := stage_w_intCast (stage_v' v m) n hn hnv'
  have hkpos : 1 ≤ k := by
    have hv'pos : 1 ≤ stage_v' v m := le_trans hmpos (stage_v'_ge v m)
    by_contra hc
    push_neg at hc
    have : n * k ≤ 0 := mul_nonpos_of_nonneg_of_nonpos (by omega) (by omega)
    omega
  refine ⟨?_, hgv', hwk ▸ hkpos⟩
  rw [hwk, hk]
  push_cast
  ring

/- ---------------- List-level facts about the adjustment pipeline ---------------- -/

@[simp] theorem bottleneck_vs_cons (w : ℤ) (ws : List ℤ) (b : ℚ) (bs : List ℚ) :
    bottleneck_vs (w :: ws) (b :: bs) = stage_v w b :: bottleneck_vs ws bs := rfl

@[simp] theorem gs_adj_cons (w : ℤ) (ws : List ℤ) (b : ℚ) (bs : List ℚ) (g : ℤ) (gs : List ℤ) :
    gs_adj (w :: ws) (b :: bs) (g :: gs) = stage_g g (stage_v w b) :: gs_adj ws bs gs := rfl

@[simp] theorem ms_adj_cons (w : ℤ) (ws : List ℤ) (b : ℚ) (bs : List ℚ) (g : ℤ) (gs : List ℤ) :
    ms_adj (w :: ws) (b :: bs) (g :: gs)
      = stage_m (stage_g g (stage_v w b)) b :: ms_adj ws bs gs := rfl

@[simp] theorem vs_adj_cons (w : ℤ) (ws : List ℤ) (b : ℚ) (bs : List ℚ) (g : ℤ) (gs : List ℤ) :
    vs_adj (w :: ws) (b :: bs) (g :: gs)
      = stage_v' (stage_v w b) (stage_m (stage_g g (stage_v w b)) b) :: vs_adj ws bs gs := rfl

@[simp] theorem ws_adj_cons (w : ℤ) (ws : List ℤ) (b : ℚ) (bs : List ℚ) (g : ℤ) (gs : List ℤ) :
    ws_adj (w :: ws) (b :: bs) (g :: gs)
      = stage_w (stage_v' (stage_v w b) (stage_m (stage_g g (stage_v w b)) b)) b
          :: ws_adj ws bs gs := rfl

@[simp] theorem bottleneck_vs_nil_left (bs : List ℚ) : bottleneck_vs [] bs = [] := rfl

@[simp] theorem gs_adj_nil (bs : List ℚ) (gs : List ℤ) : gs_adj [] bs gs = [] := by
  simp [gs_adj, bottleneck_vs]

@[simp] theorem ws_adj_nil (bs : List ℚ) (gs : List ℤ) : ws_adj [] bs gs = [] := by
  simp [ws_adj, vs_adj, ms_adj, gs_adj, bottleneck_vs]

theorem adjust_pipeline_facts (ws : List ℤ) (bs : List ℚ) (gs : List ℤ)
    (h1 : ws.length = bs.length) (h2 : bs.length = gs.length)
    (hpos : allPos ws bs gs = true) (hratio : ∀ b ∈ bs, b < 1 ∨ b.den = 1) :
    List.Forall₂ (· ≤ ·) (gs_adj ws bs gs) gs
    ∧ (∀ g ∈ gs_adj ws bs gs, 0 < g)
    ∧ (∀ w ∈ ws_adj ws bs gs, 0 < w) := by
  induction ws generalizing bs gs with
  | nil =>
    obtain rfl : bs = [] := List.length_eq_zero.mp h1.symm
    obtain rfl : gs = [] := List.length_eq_zero.mp h2.symm
    refine ⟨by simp, by simp, by simp⟩
  | cons w ws ih =>
    cases bs with
    | nil => simp at h1
    | cons b bs =>
      cases gs with
      | nil => simp at h2
      | cons g gs =>
        have h1' : ws.length = bs.length := by simpa using h1
        have h2' : bs.length = gs.length := by simpa using h2
        simp only [allPos, Bool.and_eq_true, decide_eq_true_eq] at hpos
        obtain ⟨⟨⟨hw, hb⟩, hg⟩, hrest⟩ := hpos
        have hratio' : ∀ x ∈ bs, x < 1 ∨ x.den = 1 := fun x hx => hratio x (List.mem_cons_of_mem b hx)
        obtain ⟨ihA, ihB, ihC⟩ := ih bs gs h1' h2' hrest hratio'
        have hvpos : 0 < stage_v w b := by have := stage_v_pos w b; omega
        have hg'pos : 0 < stage_g g (stage_v w b) := stage_g_pos hg hvpos
        have hmpos : 0 < stage_m (stage_g g (stage_v w b)) b := stage_m_pos b hg'pos
        have hv'pos : 1 ≤ stage_v' (stage_v w b) (stage_m (stage_g g (stage_v w b)) b) :=
          le_trans hmpos (stage_v'_ge _ _)
        have hwpos : 1 ≤ stage_w (stage_v' (stage_v w b) (stage_m (stage_g g (stage_v w b)) b)) b := by
          rcases le_or_lt b 1 with hle | hgt
          · exact stage_w_pos_of_le_one hb hle hv'pos
          · have hden : b.den = 1 := by
              rcases hratio b (List.mem_cons_self b bs) with hlt | hden
              · exact absurd hgt (not_lt.mpr (le_of_lt hlt))
              · exact hden
            obtain ⟨n, rfl⟩ : ∃ n : ℤ, b = (n : ℚ) :=
              ⟨b.num, ((Rat.den_eq_one_iff b).mp hden).symm⟩
            have hn : 1 ≤ n := by exact_mod_cast le_of_lt hgt
            exact (stage_int_facts w g n hg hn).2.2
        refine ⟨?_, ?_, ?_⟩
        · rw [gs_adj_cons]
          exact List.Forall₂.cons (stage_g_le g (stage_v w b)) ihA
        · rw [gs_adj_cons]
          intro x hx
          rcases List.mem_cons.mp hx with hhd | htl
          · omega
          · exact ihB x htl
        · rw [ws_adj_cons]
          intro x hx
          rcases List.mem_cons.mp hx with hhd | htl
          · omega
          · exact ihC x htl

theorem allCompat_adjusted (ws : List ℤ) (bs : List ℚ) (gs : List ℤ)
    (h1 : ws.length = bs.length) (h2 : bs.length = gs.length)
    (hpos : allPos ws bs gs = true) (hint : ∀ b ∈ bs, b.den = 1 ∧ 1 ≤ b) :
    allCompat (ws_adj ws bs gs) bs (gs_adj ws bs gs) = true := by
  induction ws generalizing bs gs with
  | nil =>
    obtain rfl : bs = [] := List.length_eq_zero.mp h1.symm
    obtain rfl : gs = [] := List.length_eq_zero.mp h2.symm
    rfl
  | cons w ws ih =>
    cases bs with
    | nil => simp at h1
    | cons b bs =>
      cases gs with
      | nil => simp at h2
      | cons g gs =>
        have h1' : ws.length = bs.length := by simpa using h1
        have h2' : bs.length = gs.length := by simpa using h2
        simp only [allPos, Bool.and_eq_true, decide_eq_true_eq] at hpos
        obtain ⟨⟨⟨hw, hb⟩, hg⟩, hrest⟩ := hpos
        have hint' : ∀ x ∈ bs, x.den = 1 ∧ 1 ≤ x := fun x hx => hint x (List.mem_cons_of_mem b hx)
        obtain ⟨hden, hb1⟩ := hint b (List.mem_cons_self b bs)
        obtain ⟨n, rfl⟩ : ∃ n : ℤ, b = (n : ℚ) := ⟨b.num, ((Rat.den_eq_one_iff b).mp hden).symm⟩
        have hn : 1 ≤ n := by exact_mod_cast hb1
        rw [ws_adj_cons, gs_adj_cons]
        simp only [allCompat, Bool.and_eq_true, decide_eq_true_eq]
        refine ⟨?_, ih bs gs h1' h2' hrest hint'⟩
        obtain ⟨hmul, hdvd, _⟩ := stage_int_facts w g n hg hn
        rw [hmul]
        have hg'pos : 0 < stage_g g (stage_v w (n : ℚ)) := by
          have := stage_v_pos w (n : ℚ)
          exact stage_g_pos hg (by omega)
        exact int_div_den_one hdvd (by omega)

theorem allPos_intro (ws : List ℤ) (bs : List ℚ) (gs : List ℤ)
    (hw : ∀ w ∈ ws, 0 < w) (hb : ∀ b ∈ bs, 0 < b) (hg : ∀ g ∈ gs, 0 < g) :
    allPos ws bs gs = true := by
  induction ws generalizing bs gs with
  | nil => rfl
  | cons w ws ih =>
    cases bs with
    | nil => rfl
    | cons b bs =>
      cases gs with
      | nil => rfl
      | cons g gs =>
        simp only [allPos, Bool.and_eq_true, decide_eq_true_eq]
        refine ⟨⟨⟨hw w (by simp), hb b (by simp)⟩, hg g (by simp)⟩, ?_⟩
        exact ih bs gs (fun x hx => hw x (List.mem_cons_of_mem w hx))
          (fun x hx => hb x (List.mem_cons_of_mem b hx))
          (fun x hx => hg x (List.mem_cons_of_mem g hx))

theorem adjust_ok_elim {ws gs : List ℤ} {bs : List ℚ}
    {r : List ℤ × List ℚ × List ℤ}
    (h : adjust_block_compatibility ws bs gs = .ok r) :
    ws.length = bs.length ∧ bs.length = gs.length ∧ allPos ws bs gs = true
    ∧ bs.all (fun b => decide (b < 1) || decide (b.den = 1)) = true
    ∧ r = (ws_adj ws bs gs, bs, gs_adj ws bs gs) := by
  unfold adjust_block_compatibility at h
  split at h
  · exact absurd h (by simp)
  next hlen =>
    split at h
    · exact absurd h (by simp)
    next hpos =>
      split at h
      · exact absurd h (by simp)
      next hratio =>
        split at h
        next hcompat =>
          obtain rfl := (Except.ok.inj h).symm
          exact ⟨(not_not.mp hlen).1, (not_not.mp hlen).2, not_not.mp hpos,
            not_not.mp hratio, rfl⟩
        · exact absurd h (by simp)

/- ----------------------------- Claims C1, C2, C7, C9 ----------------------------- -/

/-- C1 counterexample: the claim as stated is false.  On widths = [10],
ratios = [3/4] and groups = [2] the stated precondition holds (all values
positive, the ratio is < 1), yet the adjustment takes the defensive
post-adjustment failure branch: v = int(10 * 0.75) = 7, g = min(2, 7) = 2,
m = 2, v = max(2, round(7/2)*2) = 8, w = int(8/0.75) = 10, and
10 * 0.75 = 7.5 is not divisible by 2.  (0.75 is exactly representable as a
binary float, so the Python source fails on the same input.) -/
theorem adjust_failure_branch_reachable :
    (0 : ℚ) < 3 / 4 ∧ (3 / 4 : ℚ) < 1
    ∧ adjust_block_compatibility [10] [3 / 4] [2] = .error .BlockCompatibilityError := by
  decide

/-- C1 (amended): when every bottleneck ratio is a positive integer (rather
than merely < 1 or an integer), every stage of the adjusted output satisfies
(width' * ratio) mod g == 0 for the adjusted group width g, and the defensive
post-adjustment failure branch of adjust_block_compatibility is unreachable:
the function returns the adjusted triple. -/
theorem adjust_block_compatibility_no_failure (ws : List ℤ) (bs : List ℚ) (gs : List ℤ)
    (h1 : ws.length = bs.length) (h2 : bs.length = gs.length)
    (hw : ∀ w ∈ ws, 0 < w) (hg : ∀ g ∈ gs, 0 < g)
    (hb : ∀ b ∈ bs, b.den = 1 ∧ 1 ≤ b) :
    allCompat (ws_adj ws bs gs) bs (gs_adj ws bs gs) = true
    ∧ adjust_block_compatibility ws bs gs = .ok (ws_adj ws bs gs, bs, gs_adj ws bs gs) := by
  have hbpos : ∀ b ∈ bs, 0 < b := fun b hbm => lt_of_lt_of_le zero_lt_one (hb b hbm).2
  have hposall := allPos_intro ws bs gs hw hbpos hg
  have hcompat := allCompat_adjusted ws bs gs h1 h2 hposall hb
  refine ⟨hcompat, ?_⟩
  have hrguard : bs.all (fun b => decide (b < 1) || decide (b.den = 1)) = true := by
    rw [List.all_eq_true]
    intro b hbm
    simp [(hb b hbm).1]
  unfold adjust_block_compatibility
  rw [if_neg (not_not_intro ⟨h1, h2⟩), if_neg (not_not_intro hposall),
    if_neg (not_not_intro hrguard), if_pos hcompat]

theorem adjust_block_compatibility_no_failure_witness :
    allCompat (ws_adj [24, 24] [1, 1] [8, 8]) [1, 1] (gs_adj [24, 24] [1, 1] [8, 8]) = true
    ∧ adjust_block_compatibility [24, 24] [1, 1] [8, 8]
        = .ok (ws_adj [24, 24] [1, 1] [8, 8], [1, 1], gs_adj [24, 24] [1, 1] [8, 8]) :=
  adjust_block_compatibility_no_failure [24, 24] [1, 1] [8, 8]
    (by decide) (by decide) (by decide) (by decide) (by decide)

/-- C2 counterexample: the claim as stated is false.  At width 7 and ratio
1/2 the source computes the intermediate bottleneck width as
int(max(1, 7 * 0.5)) = int(3.5) = 3 (truncation), while rounding the product
to the nearest integer as the claim states would give max(1, round(3.5)) = 4. -/
theorem bottleneck_vs_truncates_not_rounds :
    bottleneck_vs [7] [1 / 2] = [3] ∧ max 1 (rhe ((7 : ℚ) * (1 / 2))) = 4 ∧ (3 : ℤ) ≠ 4 := by
  decide

/-- C2 (amended): for every stage, the intermediate bottleneck width is
computed as v = int(max(1, width * ratio)), i.e. the product is truncated
toward zero (equivalently, on exact values, v = max(1, floor(width * ratio))),
not rounded to the nearest integer. -/
theorem bottleneck_vs_eq_max_one_floor (ws : List ℤ) (bs : List ℚ) :
    bottleneck_vs ws bs = List.zipWith (fun w b => max 1 ⌊(w : ℚ) * b⌋) ws bs := by
  unfold bottleneck_vs
  induction ws generalizing bs with
  | nil => rfl
  | cons w ws ih =>
    cases bs with
    | nil => rfl
    | cons b bs => simp [stage_v_eq, ih]

/-- C7: on widths = [24, 24], ratios = [1, 1], groups = [8, 8] the
group-compatibility adjustment is a no-op: the returned triple is
element-wise equal to the input. -/
theorem adjust_block_compatibility_noop :
    adjust_block_compatibility [24, 24] [1, 1] [8, 8] = .ok ([24, 24], [1, 1], [8, 8]) := by
  decide

/-- C9: whenever adjust_block_compatibility returns, the returned ratio list
is the input ratio list unchanged, each returned group width is at most the
corresponding input group width, and all returned widths and group widths are
strictly positive. -/
theorem adjust_block_compatibility_frame (ws gs ws' gs' : List ℤ) (bs bs' : List ℚ)
    (h : adjust_block_compatibility ws bs gs = .ok (ws', bs', gs')) :
    bs' = bs ∧ List.Forall₂ (· ≤ ·) gs' gs
    ∧ (∀ w ∈ ws', 0 < w) ∧ (∀ g ∈ gs', 0 < g) := by
  obtain ⟨h1, h2, hpos, hratio, heq⟩ := adjust_ok_elim h
  have hratio' : ∀ x ∈ bs, x < 1 ∨ x.den = 1 := by
    intro x hxm
    have hx := List.all_eq_true.mp hratio x hxm
    simpa using hx
  obtain ⟨hA, hB, hC⟩ := adjust_pipeline_facts ws bs gs h1 h2 hpos hratio'
  simp only [Prod.mk.injEq] at heq
  obtain ⟨e1, e2, e3⟩ := heq
  subst e1
  subst e2
  subst e3
  exact ⟨rfl, hA, hC, hB⟩

theorem adjust_block_compatibility_frame_witness :
    adjust_block_compatibility [24] [1] [8] = .ok ([24], [1], [8])
    ∧ (([1] : List ℚ) = [1] ∧ List.Forall₂ (· ≤ ·) ([8] : List ℤ) ([8] : List ℤ)
        ∧ (∀ w ∈ ([24] : List ℤ), 0 < w) ∧ (∀ g ∈ ([8] : List ℤ), 0 < g)) :=
  ⟨by decide, adjust_block_compatibility_frame [24] [8] [24] [8] [1] [1] (by decide)⟩

/- ------------------------- generate_regnet (lines 154-169) ------------------------- -/

/-- Round half to even on the reals: the noncomputable counterpart of rhe,
used where the source applies np.round to values obtained from logarithms
and real powers. -/
noncomputable def rheR (x : ℝ) : ℤ :=
  if x - ⌊x⌋ < 1 / 2 then ⌊x⌋
  else if 1 / 2 < x - ⌊x⌋ then ⌊x⌋ + 1
  else if ⌊x⌋ % 2 = 0 then ⌊x⌋ else ⌊x⌋ + 1

/-- Model of np.unique(ws_all, return_counts=True): the sorted distinct
values together with, for each, its number of occurrences in the input. -/
def np_unique_counts (l : List ℤ) : List ℤ × List ℕ :=
  ((l.insertionSort (· ≤ ·)).dedup, (l.insertionSort (· ≤ ·)).dedup.map fun x => l.count x)

/-- Shallow embedding of generate_regnet(w_a, w_0, w_m, d, q=8)
(regnet.py lines 154-169).  The assert on the design-space parameters maps to
InvalidDesignSpace; d = 0 is also an error case because ks.max() on the empty
array raises.  Returns (ws, ds, num_stages, total_stages, ws_all, ws_cont). -/
noncomputable def generate_regnet (wa : ℝ) (w0 : ℕ) (wm : ℝ) (d : ℕ) (q : ℕ) :
    Except RegNetError (List ℤ × List ℕ × ℕ × ℤ × List ℤ × List ℝ) :=
  if ¬(0 ≤ wa ∧ 0 < w0 ∧ 1 < wm ∧ w0 % q = 0) then .error .InvalidDesignSpace
  else if d = 0 then .error .InvalidDesignSpace
  else
    let ws_cont : List ℝ := (List.range d).map fun (i : ℕ) => (i : ℝ) * wa + (w0 : ℝ)
    let ks : List ℤ := ws_cont.map fun wc => rheR (Real.log (wc / (w0 : ℝ)) / Real.log wm)
    let ws_all : List ℤ := ks.map fun k => rheR ((w0 : ℝ) * wm ^ k / (q : ℝ)) * (q : ℤ)
    let u := np_unique_counts ws_all
    .ok (u.1, u.2, u.1.length, (ks.maximum.unbot' 0) + 1, ws_all, ws_cont)

theorem np_unique_counts_sum (l : List ℤ) : (np_unique_counts l).2.sum = l.length := by
  unfold np_unique_counts
  have hperm := List.perm_insertionSort (· ≤ ·) l
  have hcount : ∀ x : ℤ, l.count x = (l.insertionSort (· ≤ ·)).count x :=
    fun x => (hperm.count_eq x).symm
  calc ((l.insertionSort (· ≤ ·)).dedup.map fun x => l.count x).sum
      = ((l.insertionSort (· ≤ ·)).dedup.map fun x => (l.insertionSort (· ≤ ·)).count x).sum := by
        refine congrArg List.sum (List.map_congr_left fun x _ => hcount x)
    _ = (l.insertionSort (· ≤ ·)).length := List.sum_map_count_dedup_eq_length _
    _ = l.length := hperm.length_eq

theorem np_unique_counts_singleton (x : ℤ) : np_unique_counts [x] = ([x], [1]) := by
  simp [np_unique_counts, List.insertionSort]

/-- C3: for every valid width-quantizer input (wa ≥ 0, w0 > 0, wm > 1,
w0 mod q == 0, depth > 0), the per-stage depths sum to exactly the requested
total depth, and a depth of 1 produces exactly one stage of depth 1. -/
theorem generate_regnet_depth_conservation (wa : ℝ) (w0 : ℕ) (wm : ℝ) (d q : ℕ)
    (h0 : 0 ≤ wa) (h1 : 0 < w0) (h2 : 1 < wm) (h3 : w0 % q = 0) (h4 : 0 < d) :
    ∃ ws ds ns ts wsa wsc,
      generate_regnet wa w0 wm d q = .ok (ws, ds, ns, ts, wsa, wsc)
      ∧ ds.sum = d ∧ (d = 1 → ds = [1]) := by
  unfold generate_regnet
  rw [if_neg (not_not_intro ⟨h0, h1, h2, h3⟩), if_neg (by omega : ¬(d = 0))]
  refine ⟨_, _, _, _, _, _, rfl, ?_, ?_⟩
  · rw [np_unique_counts_sum, List.length_map, List.length_map, List.length_map,
      List.length_range]
  · intro hd
    subst hd
    rw [show List.range 1 = [0] from rfl]
    simp only [List.map_cons, List.map_nil, np_unique_counts_singleton]

theorem generate_regnet_depth_conservation_witness :
    (0 : ℝ) ≤ 36.44 ∧ (1 : ℝ) < 2.49 ∧ 24 % 8 = 0
    ∧ ∃ ws ds ns ts wsa wsc,
        generate_regnet 36.44 24 2.49 13 8 = .ok (ws, ds, ns, ts, wsa, wsc)
        ∧ ds.sum = 13 ∧ (13 = 1 → ds = [1]) :=
  ⟨by norm_num, by norm_num, by norm_num,
    generate_regnet_depth_conservation 36.44 24 2.49 13 8
      (by norm_num) (by norm_num) (by norm_num) (by norm_num) (by norm_num)⟩

/- ----------------------- Layer constructors (lines 14-50) ----------------------- -/

/-- Parameters of a conv2d layer as built by the conv2d helper (lines 14-20):
the kernel k must be odd and the padding is fixed to (k-1)//2 with
pad_mode 'pad'. -/
structure ConvS where
  w_in : ℤ
  w_out : ℤ
  k : ℕ
  stride : ℕ
  groups : ℤ
  bias : Bool
  deriving DecidableEq

/-- Parameters of a norm2d (BatchNorm2d) layer (lines 23-25). -/
structure BNS where
  w_in : ℤ
  eps : ℚ
  mom : ℚ
  deriving DecidableEq

/-- Parameters of a linear (Dense) layer (lines 42-45). -/
structure LinS where
  w_in : ℤ
  w_out : ℤ
  bias : Bool
  deriving DecidableEq

/-- The conv2d helper (line 14): positional arguments
(w_in, w_out, k, stride, groups, bias); the Python defaults are stride=1,
groups=1, bias=False, written out explicitly at every call site below. -/
def conv2d (w_in w_out : ℤ) (k stride : ℕ) (groups : ℤ) (bias : Bool) : ConvS :=
  ⟨w_in, w_out, k, stride, groups, bias⟩

/-- Parameters of an SE block (lines 101-124): avg-pool, 1x1 conv (bias),
ReLU, 1x1 conv (bias), Sigmoid, multiplied into the main path. -/
structure SES where
  w_in : ℤ
  w_se : ℤ
  deriving DecidableEq

/- --------------------- Symbolic forward expressions (construct) --------------------- -/

/-- Symbolic tensor expression: the structure of a construct(x) computation.
Normalization retains its BNS parameters; activation() is always ReLU
(line 48). -/
inductive TExpr where
  | input : TExpr
  | conv : ConvS → TExpr → TExpr
  | bn : BNS → TExpr → TExpr
  | relu : TExpr → TExpr
  | add : TExpr → TExpr → TExpr
  | mul : TExpr → TExpr → TExpr
  | sigmoid : TExpr → TExpr
  | gap : TExpr → TExpr
  | pool : ℕ → ℕ → TExpr → TExpr
  | flatten : TExpr → TExpr
  | fc : LinS → TExpr → TExpr
  deriving DecidableEq

/-- SE.construct (lines 114-115): x * f_ex(avg_pool(x)). -/
def SE_construct (s : SES) (x : TExpr) : TExpr :=
  .mul x (.sigmoid (.conv (conv2d s.w_se s.w_in 1 1 1 true)
    (.relu (.conv (conv2d s.w_in s.w_se 1 1 1 true) (.gap x)))))

/- ------------------------- Blocks and stems (lines 182-367) ------------------------- -/

/-- Per-block parameter dictionary: bot_mul, group_w, se_r (line 484). -/
structure BParams where
  bot_mul : ℚ
  group_w : ℤ
  se_r : ℚ
  deriving DecidableEq

/-- VanillaBlock (lines 249-268): two 3x3 conv+BN+ReLU stages.  The _params
argument of the source constructor is unused. -/
structure VanillaBlockM where
  a : ConvS
  a_bn : BNS
  b : ConvS
  b_bn : BNS
  deriving DecidableEq

def VanillaBlock_init (w_in w_out : ℤ) (stride : ℕ) (eps mom : ℚ) : VanillaBlockM :=
  ⟨conv2d w_in w_out 3 stride 1 false, ⟨w_out, eps, mom⟩,
   conv2d w_out w_out 3 1 1 false, ⟨w_out, eps, mom⟩⟩

def VanillaBlock_construct (m : VanillaBlockM) (x : TExpr) : TExpr :=
  .relu (.bn m.b_bn (.conv m.b (.relu (.bn m.a_bn (.conv m.a x)))))

/-- BasicTransform (lines 271-289): like VanillaBlock but the second BN has
no trailing activation (the source also tags b_bn with final_bn = True, a
weight-initialization marker outside this model). -/
structure BasicTransformM where
  a : ConvS
  a_bn : BNS
  b : ConvS
  b_bn : BNS
  deriving DecidableEq

def BasicTransform_init (w_in w_out : ℤ) (stride : ℕ) (eps mom : ℚ) : BasicTransformM :=
  ⟨conv2d w_in w_out 3 stride 1 false, ⟨w_out, eps, mom⟩,
   conv2d w_out w_out 3 1 1 false, ⟨w_out, eps, mom⟩⟩

def BasicTransform_construct (m : BasicTransformM) (x : TExpr) : TExpr :=
  .bn m.b_bn (.conv m.b (.relu (.bn m.a_bn (.conv m.a x))))

/-- ResBasicBlock (lines 292-306): proj and bn start as None and are set
together iff (w_in != w_out) or (stride != 1). -/
structure ResBasicBlockM where
  proj : Option ConvS
  bn : Option BNS
  f : BasicTransformM
  deriving DecidableEq

def ResBasicBlock_init (w_in w_out : ℤ) (stride : ℕ) (eps mom : ℚ) : ResBasicBlockM :=
  if w_in ≠ w_out ∨ stride ≠ 1 then
    ⟨some (conv2d w_in w_out 1 stride 1 false), some ⟨w_out, eps, mom⟩,
     BasicTransform_init w_in w_out stride eps mom⟩
  else
    ⟨none, none, BasicTransform_init w_in w_out stride eps mom⟩

/-- ResBasicBlock.construct (lines 304-306):
x_p = bn(proj(x)) if proj else x; return af(x_p + f(x)). -/
def ResBasicBlock_construct (m : ResBasicBlockM) (x : TExpr) : TExpr :=
  let x_p := match m.proj, m.bn with
    | some p, some pbn => .bn pbn (.conv p x)
    | _, _ => x
  .relu (.add x_p (BasicTransform_construct m.f x))

/-- BottleneckTransform (lines 309-338): 1x1 reduce, 3x3 grouped conv,
optional SE, 1x1 expand.  w_b = int(round(w_out * bot_mul)),
w_se = int(round(w_in * se_r)), groups = w_b // group_w; the SE block is
present iff w_se is truthy (nonzero). -/
structure BottleneckTransformM where
  a : ConvS
  a_bn : BNS
  b : ConvS
  b_bn : BNS
  se : Option SES
  c : ConvS
  c_bn : BNS
  deriving DecidableEq

def BottleneckTransform_init (w_in w_out : ℤ) (stride : ℕ) (p : BParams) (eps mom : ℚ) :
    BottleneckTransformM :=
  let w_b := rhe ((w_out : ℚ) * p.bot_mul)
  let w_se := rhe ((w_in : ℚ) * p.se_r)
  let groups := Int.fdiv w_b p.group_w
  ⟨conv2d w_in w_b 1 1 1 false, ⟨w_b, eps, mom⟩,
   conv2d w_b w_b 3 stride groups false, ⟨w_b, eps, mom⟩,
   if w_se ≠ 0 then some ⟨w_b, w_se⟩ else none,
   conv2d w_b w_out 1 1 1 false, ⟨w_out, eps, mom⟩⟩

def BottleneckTransform_construct (m : BottleneckTransformM) (x : TExpr) : TExpr :=
  let x1 := .relu (.bn m.a_bn (.conv m.a x))
  let x2 := .relu (.bn m.b_bn (.conv m.b x1))
  let x3 := match m.se with
    | some s => SE_construct s x2
    | none => x2
  .bn m.c_bn (.conv m.c x3)

/-- ResBottleneckBlock (lines 341-355): same shortcut rule as ResBasicBlock,
bottleneck transform inside. -/
structure ResBottleneckBlockM where
  proj : Option ConvS
  bn : Option BNS
  f : BottleneckTransformM
  deriving DecidableEq

def ResBottleneckBlock_init (w_in w_out : ℤ) (stride : ℕ) (p : BParams) (eps mom : ℚ) :
    ResBottleneckBlockM :=
  if w_in ≠ w_out ∨ stride ≠ 1 then
    ⟨some (conv2d w_in w_out 1 stride 1 false), some ⟨w_out, eps, mom⟩,
     BottleneckTransform_init w_in w_out stride p eps mom⟩
  else
    ⟨none, none, BottleneckTransform_init w_in w_out stride p eps mom⟩

def ResBottleneckBlock_construct (m : ResBottleneckBlockM) (x : TExpr) : TExpr :=
  let x_p := match m.proj, m.bn with
    | some p, some pbn => .bn pbn (.conv p x)
    | _, _ => x
  .relu (.add x_p (BottleneckTransform_construct m.f x))

/-- ResBottleneckLinearBlock (lines 358-367): skip iff (w_in == w_out) and
(stride == 1); no projection and no closing activation. -/
structure ResBottleneckLinearBlockM where
  has_skip : Bool
  f : BottleneckTransformM
  deriving DecidableEq

def ResBottleneckLinearBlock_init (w_in w_out : ℤ) (stride : ℕ) (p : BParams) (eps mom : ℚ) :
    ResBottleneckLinearBlockM :=
  ⟨decide (w_in = w_out) && decide (stride = 1),
   BottleneckTransform_init w_in w_out stride p eps mom⟩

def ResBottleneckLinearBlock_construct (m : ResBottleneckLinearBlockM) (x : TExpr) : TExpr :=
  if m.has_skip then .add x (BottleneckTransform_construct m.f x)
  else BottleneckTransform_construct m.f x

/-- ResStemCifar (lines 182-203): 3x3 conv, BN, ReLU. -/
structure ResStemCifarM where
  conv : ConvS
  bn : BNS
  deriving DecidableEq

def ResStemCifar_init (w_in w_out : ℤ) (eps mom : ℚ) : ResStemCifarM :=
  ⟨conv2d w_in w_out 3 1 1 false, ⟨w_out, eps, mom⟩⟩

/-- ResStem (lines 206-230): 7x7 stride-2 conv, BN, ReLU, 3x3 stride-2
max-pool (pool kernel and stride recorded explicitly). -/
structure ResStemM where
  conv : ConvS
  bn : BNS
  pool_k : ℕ
  pool_stride : ℕ
  deriving DecidableEq

def ResStem_init (w_in w_out : ℤ) (eps mom : ℚ) : ResStemM :=
  ⟨conv2d w_in w_out 7 2 1 false, ⟨w_out, eps, mom⟩, 3, 2⟩

/-- SimpleStem (lines 233-246): 3x3 stride-2 conv, BN, ReLU. -/
structure SimpleStemM where
  conv : ConvS
  bn : BNS
  deriving DecidableEq

def SimpleStem_init (w_in w_out : ℤ) (eps mom : ℚ) : SimpleStemM :=
  ⟨conv2d w_in w_out 3 2 1 false, ⟨w_out, eps, mom⟩⟩

/- ------------------------ Block vocabulary (lines 370-392) ------------------------ -/

/-- Closed enumeration of the stem vocabulary (lines 372-376). -/
inductive StemKind where
  | res_stem_cifar : StemKind
  | res_stem_in : StemKind
  | simple_stem_in : StemKind
  deriving DecidableEq

/-- Closed enumeration of the block vocabulary (lines 384-389). -/
inductive BlockKind where
  | vanilla_block : BlockKind
  | res_basic_block : BlockKind
  | res_bottleneck_block : BlockKind
  | res_bottleneck_linear_block : BlockKind
  deriving DecidableEq

/-- get_stem_fun (lines 370-379): resolves a stem-kind tag; an unknown tag
fails the assert, modelled as UnknownStemKind. -/
def get_stem_fun (stem_type : String) : Except RegNetError StemKind :=
  if stem_type = "res_stem_cifar" then .ok .res_stem_cifar
  else if stem_type = "res_stem_in" then .ok .res_stem_in
  else if stem_type = "simple_stem_in" then .ok .simple_stem_in
  else .error (.UnknownStemKind stem_type)

/-- get_block_fun (lines 382-392): resolves a block-kind tag; an unknown tag
fails the assert, modelled as UnknownBlockKind. -/
def get_block_fun (block_type : String) : Except RegNetError BlockKind :=
  if block_type = "vanilla_block" then .ok .vanilla_block
  else if block_type = "res_basic_block" then .ok .res_basic_block
  else if block_type = "res_bottleneck_block" then .ok .res_bottleneck_block
  else if block_type = "res_bottleneck_linear_block" then .ok .res_bottleneck_linear_block
  else .error (.UnknownBlockKind block_type)

/-- A constructed block of any kind. -/
inductive BlockM where
  | vanilla : VanillaBlockM → BlockM
  | basic : ResBasicBlockM → BlockM
  | bottleneck : ResBottleneckBlockM → BlockM
  | bottleneckLinear : ResBottleneckLinearBlockM → BlockM
  deriving DecidableEq

/-- A constructed stem of any kind. -/
inductive StemM where
  | cifar : ResStemCifarM → StemM
  | imagenet : ResStemM → StemM
  | simple : SimpleStemM → StemM
  deriving DecidableEq

def Block_init (bk : BlockKind) (w_in w_out : ℤ) (stride : ℕ) (p : BParams) (eps mom : ℚ) :
    BlockM :=
  match bk with
  | .vanilla_block => .vanilla (VanillaBlock_init w_in w_out stride eps mom)
  | .res_basic_block => .basic (ResBasicBlock_init w_in w_out stride eps mom)
  | .res_bottleneck_block => .bottleneck (ResBottleneckBlock_init w_in w_out stride p eps mom)
  | .res_bottleneck_linear_block =>
      .bottleneckLinear (ResBottleneckLinearBlock_init w_in w_out stride p eps mom)

def Stem_init (sk : StemKind) (w_in w_out : ℤ) (eps mom : ℚ) : StemM :=
  match sk with
  | .res_stem_cifar => .cifar (ResStemCifar_init w_in w_out eps mom)
  | .res_stem_in => .imagenet (ResStem_init w_in w_out eps mom)
  | .simple_stem_in => .simple (SimpleStem_init w_in w_out eps mom)

/- ----------------------- Complexity accountant (lines 56-95) ----------------------- -/

/-- CostState cx = (h, w, flops, params, acts).  Spatial sizes are naturals;
the accumulators are integers (Python ints are exact). -/
structure Cx where
  h : ℕ
  w : ℕ
  flops : ℤ
  params : ℤ
  acts : ℤ
  deriving DecidableEq

/-- conv2d_cx (lines 56-64).  Python // on the positive operand product is
floor division (Int.fdiv). -/
def conv2d_cx (cx : Cx) (w_in w_out : ℤ) (k stride : ℕ) (groups : ℤ) (bias : Bool) : Cx :=
  let h := (cx.h - 1) / stride + 1
  let w := (cx.w - 1) / stride + 1
  ⟨h, w,
   cx.flops + Int.fdiv ((k : ℤ) * k * w_in * w_out * h * w) groups
     + (if bias then w_out * h * w else 0),
   cx.params + Int.fdiv ((k : ℤ) * k * w_in * w_out) groups + (if bias then w_out else 0),
   cx.acts + w_out * h * w⟩

/-- norm2d_cx (lines 67-71). -/
def norm2d_cx (cx : Cx) (w_in : ℤ) : Cx :=
  ⟨cx.h, cx.w, cx.flops, cx.params + 2 * w_in, cx.acts⟩

/-- pool2d_cx (lines 74-80). -/
def pool2d_cx (cx : Cx) (w_in : ℤ) (k stride : ℕ) : Cx :=
  let h := (cx.h - 1) / stride + 1
  let w := (cx.w - 1) / stride + 1
  ⟨h, w, cx.flops, cx.params, cx.acts + w_in * h * w⟩

/-- gap2d_cx (lines 83-86): sets h = w = 1; the channel argument is unused. -/
def gap2d_cx (cx : Cx) (_w_in : ℤ) : Cx :=
  ⟨1, 1, cx.flops, cx.params, cx.acts⟩

/-- linear_cx (lines 89-95), with num_locations explicit (default 1). -/
def linear_cx (cx : Cx) (w_in w_out : ℤ) (bias : Bool) (num_locations : ℤ) : Cx :=
  ⟨cx.h, cx.w,
   cx.flops + w_in * w_out * num_locations + (if bias then w_out * num_locations else 0),
   cx.params + w_in * w_out + (if bias then w_out else 0),
   cx.acts + w_out * num_locations⟩

/-- SE.complexity (lines 117-124): saves h and w, applies gap and the two
biased 1x1 convs, then restores h and w (the gate is a parallel branch). -/
def SE_cx (cx : Cx) (w_in w_se : ℤ) : Cx :=
  let h := cx.h
  let w := cx.w
  let cx1 := gap2d_cx cx w_in
  let cx2 := conv2d_cx cx1 w_in w_se 1 1 1 true
  let cx3 := conv2d_cx cx2 w_se w_in 1 1 1 true
  ⟨h, w, cx3.flops, cx3.params, cx3.acts⟩

/-- ResStemCifar.complexity (lines 199-203). -/
def ResStemCifar_cx (cx : Cx) (w_in w_out : ℤ) : Cx :=
  norm2d_cx (conv2d_cx cx w_in w_out 3 1 1 false) w_out

/-- ResStem.complexity (lines 225-230). -/
def ResStem_cx (cx : Cx) (w_in w_out : ℤ) : Cx :=
  pool2d_cx (norm2d_cx (conv2d_cx cx w_in w_out 7 2 1 false) w_out) w_out 3 2

/-- Modelled from the spec: SimpleStem has no complexity method in the
source; per section 4.5 (one pure cost rule per structural primitive,
mirroring the constructor) the rule is the conv rule then the normalize rule
for the 3x3 stride-2 conv + BN + ReLU of SimpleStem.__init__. -/
def SimpleStem_cx (cx : Cx) (w_in w_out : ℤ) : Cx :=
  norm2d_cx (conv2d_cx cx w_in w_out 3 2 1 false) w_out

/-- Modelled from the spec: none of the four block classes defines the
complexity method that AnyStage.complexity (lines 411-416) invokes; per
section 4.5 each block's cost rule applies the primitive rules in the order
of its constructor, with the projection shortcut treated as a parallel branch
that restores (h, w) exactly as SE.complexity does in the source. -/
def VanillaBlock_cx (cx : Cx) (w_in w_out : ℤ) (stride : ℕ) : Cx :=
  norm2d_cx (conv2d_cx (norm2d_cx (conv2d_cx cx w_in w_out 3 stride 1 false) w_out)
    w_out w_out 3 1 1 false) w_out

/-- Modelled from the spec: cost rule of BasicTransform (same primitive
sequence as VanillaBlock; the trailing activation has no cost rule). -/
def BasicTransform_cx (cx : Cx) (w_in w_out : ℤ) (stride : ℕ) : Cx :=
  norm2d_cx (conv2d_cx (norm2d_cx (conv2d_cx cx w_in w_out 3 stride 1 false) w_out)
    w_out w_out 3 1 1 false) w_out

/-- Modelled from the spec: cost rule of ResBasicBlock; the 1x1 projection
and its BN are counted when present, with (h, w) restored afterwards since
the projection is a parallel branch. -/
def ResBasicBlock_cx (cx : Cx) (w_in w_out : ℤ) (stride : ℕ) : Cx :=
  let cx1 :=
    if w_in ≠ w_out ∨ stride ≠ 1 then
      let h := cx.h
      let w := cx.w
      let cxp := norm2d_cx (conv2d_cx cx w_in w_out 1 stride 1 false) w_out
      ⟨h, w, cxp.flops, cxp.params, cxp.acts⟩
    else cx
  BasicTransform_cx cx1 w_in w_out stride

/-- Modelled from the spec: cost rule of BottleneckTransform, mirroring its
constructor (lines 312-326): 1x1 reduce, grouped 3x3, optional SE (present
iff w_se is nonzero, exactly as in the constructor), 1x1 expand. -/
def BottleneckTransform_cx (cx : Cx) (w_in w_out : ℤ) (stride : ℕ) (p : BParams) : Cx :=
  let w_b := rhe ((w_out : ℚ) * p.bot_mul)
  let w_se := rhe ((w_in : ℚ) * p.se_r)
  let groups := Int.fdiv w_b p.group_w
  let cx1 := norm2d_cx (conv2d_cx cx w_in w_b 1 1 1 false) w_b
  let cx2 := norm2d_cx (conv2d_cx cx1 w_b w_b 3 stride groups false) w_b
  let cx3 := if w_se ≠ 0 then SE_cx cx2 w_b w_se else cx2
  norm2d_cx (conv2d_cx cx3 w_b w_out 1 1 1 false) w_out

/-- Modelled from the spec: cost rule of ResBottleneckBlock (projection
branch as in ResBasicBlock_cx, then the bottleneck transform). -/
def ResBottleneckBlock_cx (cx : Cx) (w_in w_out : ℤ) (stride : ℕ) (p : BParams) : Cx :=
  let cx1 :=
    if w_in ≠ w_out ∨ stride ≠ 1 then
      let h := cx.h
      let w := cx.w
      let cxp := norm2d_cx (conv2d_cx cx w_in w_out 1 stride 1 false) w_out
      ⟨h, w, cxp.flops, cxp.params, cxp.acts⟩
    else cx
  BottleneckTransform_cx cx1 w_in w_out stride p

/-- Modelled from the spec: cost rule of ResBottleneckLinearBlock (transform
only; the skip path has no cost). -/
def ResBottleneckLinearBlock_cx (cx : Cx) (w_in w_out : ℤ) (stride : ℕ) (p : BParams) : Cx :=
  BottleneckTransform_cx cx w_in w_out stride p

def Block_cx (bk : BlockKind) (cx : Cx) (w_in w_out : ℤ) (stride : ℕ) (p : BParams) : Cx :=
  match bk with
  | .vanilla_block => VanillaBlock_cx cx w_in w_out stride
  | .res_basic_block => ResBasicBlock_cx cx w_in w_out stride
  | .res_bottleneck_block => ResBottleneckBlock_cx cx w_in w_out stride p
  | .res_bottleneck_linear_block => ResBottleneckLinearBlock_cx cx w_in w_out stride p

def Stem_cx (sk : StemKind) (cx : Cx) (w_in w_out : ℤ) : Cx :=
  match sk with
  | .res_stem_cifar => ResStemCifar_cx cx w_in w_out
  | .res_stem_in => ResStem_cx cx w_in w_out
  | .simple_stem_in => SimpleStem_cx cx w_in w_out

/- ------------------- True spatial semantics (external operator contract) ------------------- -/

/-- Modelled from the spec: output spatial size of the external convolution
and pooling operators, consumed only through their shape contract (section
6): with input size h, kernel k, stride s and symmetric padding p, the
operator output has size floor((h + 2p - k)/s) + 1.  The conv2d helper
always passes p = (k-1)//2 with odd k (lines 16-18); pool2d pads by (k-1)//2
explicitly and applies a valid max-pool (lines 30-34), giving the same
formula. -/
def convOut (h k s p : ℕ) : ℕ := (h + 2 * p - k) / s + 1

def conv2d_shape (k s : ℕ) (hw : ℕ × ℕ) : ℕ × ℕ :=
  (convOut hw.1 k s ((k - 1) / 2), convOut hw.2 k s ((k - 1) / 2))

def pool2d_shape (k s : ℕ) (hw : ℕ × ℕ) : ℕ × ℕ :=
  (convOut hw.1 k s ((k - 1) / 2), convOut hw.2 k s ((k - 1) / 2))

def gap2d_shape (_hw : ℕ × ℕ) : ℕ × ℕ := (1, 1)

/-- Spatial size of SE.construct output: the gate is broadcast-multiplied
into x, so the output keeps the spatial size of x. -/
def SE_shape (hw : ℕ × ℕ) : ℕ × ℕ := hw

def ResStemCifar_shape (hw : ℕ × ℕ) : ℕ × ℕ := conv2d_shape 3 1 hw

def ResStem_shape (hw : ℕ × ℕ) : ℕ × ℕ := pool2d_shape 3 2 (conv2d_shape 7 2 hw)

def SimpleStem_shape (hw : ℕ × ℕ) : ℕ × ℕ := conv2d_shape 3 2 hw

def Stem_shape (sk : StemKind) (hw : ℕ × ℕ) : ℕ × ℕ :=
  match sk with
  | .res_stem_cifar => ResStemCifar_shape hw
  | .res_stem_in => ResStem_shape hw
  | .simple_stem_in => SimpleStem_shape hw

def VanillaBlock_shape (stride : ℕ) (hw : ℕ × ℕ) : ℕ × ℕ :=
  conv2d_shape 3 1 (conv2d_shape 3 stride hw)

def BasicTransform_shape (stride : ℕ) (hw : ℕ × ℕ) : ℕ × ℕ :=
  conv2d_shape 3 1 (conv2d_shape 3 stride hw)

/-- ResBasicBlock.construct returns af(x_p + f(x)); the sum has the spatial
size of the transform branch. -/
def ResBasicBlock_shape (stride : ℕ) (hw : ℕ × ℕ) : ℕ × ℕ := BasicTransform_shape stride hw

def BottleneckTransform_shape (stride : ℕ) (hw : ℕ × ℕ) : ℕ × ℕ :=
  conv2d_shape 1 1 (SE_shape (conv2d_shape 3 stride (conv2d_shape 1 1 hw)))

def ResBottleneckBlock_shape (stride : ℕ) (hw : ℕ × ℕ) : ℕ × ℕ :=
  BottleneckTransform_shape stride hw

def ResBottleneckLinearBlock_shape (stride : ℕ) (hw : ℕ × ℕ) : ℕ × ℕ :=
  BottleneckTransform_shape stride hw

def Block_shape (bk : BlockKind) (stride : ℕ) (hw : ℕ × ℕ) : ℕ × ℕ :=
  match bk with
  | .vanilla_block => VanillaBlock_shape stride hw
  | .res_basic_block => ResBasicBlock_shape stride hw
  | .res_bottleneck_block => ResBottleneckBlock_shape stride hw
  | .res_bottleneck_linear_block => ResBottleneckLinearBlock_shape stride hw

/- ----------------------- Stage, head and network (lines 395-533) ----------------------- -/

/-- AnyStage.__init__ (lines 398-404): d blocks; after each block,
stride becomes 1 and w_in becomes w_out. -/
def AnyStage_blocks (bk : BlockKind) (w_in w_out : ℤ) (stride : ℕ) (d : ℕ) (p : BParams)
    (eps mom : ℚ) : List BlockM :=
  match d with
  | 0 => []
  | Nat.succ d' => Block_init bk w_in w_out stride p eps mom
      :: AnyStage_blocks bk w_out w_out 1 d' p eps mom

/-- AnyStage.complexity (lines 411-416): folds the block cost rule d times
with the same stride/w_in evolution as the constructor. -/
def AnyStage_cx (cx : Cx) (w_in w_out : ℤ) (stride : ℕ) (d : ℕ) (bk : BlockKind)
    (p : BParams) : Cx :=
  match d with
  | 0 => cx
  | Nat.succ d' => AnyStage_cx (Block_cx bk cx w_in w_out stride p) w_out w_out 1 d' bk p

/-- Spatial size after a stage: block 0 at the stage stride, the remaining
d-1 blocks at stride 1. -/
def AnyStage_shape (bk : BlockKind) (stride : ℕ) (d : ℕ) (hw : ℕ × ℕ) : ℕ × ℕ :=
  match d with
  | 0 => hw
  | Nat.succ d' => AnyStage_shape bk 1 d' (Block_shape bk stride hw)

/-- AnyHead (lines 419-438): optional 1x1 conv + BN + ReLU when
head_width > 0, then global average pool and a biased classifier. -/
structure AnyHeadM where
  head_width : ℤ
  conv : Option ConvS
  bn : Option BNS
  fc : LinS
  deriving DecidableEq

def AnyHead_init (w_in head_width num_classes : ℤ) (eps mom : ℚ) : AnyHeadM :=
  if 0 < head_width then
    ⟨head_width, some (conv2d w_in head_width 1 1 1 false), some ⟨head_width, eps, mom⟩,
     ⟨head_width, num_classes, true⟩⟩
  else
    ⟨head_width, none, none, ⟨w_in, num_classes, true⟩⟩

/-- AnyHead.complexity (lines 440-448). -/
def AnyHead_cx (cx : Cx) (w_in head_width num_classes : ℤ) : Cx :=
  if 0 < head_width then
    linear_cx (gap2d_cx (norm2d_cx (conv2d_cx cx w_in head_width 1 1 1 false) head_width)
      head_width) head_width num_classes true 1
  else
    linear_cx (gap2d_cx cx w_in) w_in num_classes true 1

/-- Spatial size after the head: the global average pool collapses the
spatial extent to 1 x 1 (the classifier acts on flattened features). -/
def AnyHead_shape (head_width : ℤ) (hw : ℕ × ℕ) : ℕ × ℕ :=
  if 0 < head_width then gap2d_shape (conv2d_shape 1 1 hw) else gap2d_shape hw

/-- A fully assembled network: stem, stages of blocks, head. -/
structure AnyNetModel where
  stem : StemM
  stages : List (List BlockM)
  head : AnyHeadM
  deriving DecidableEq

/-- Stage construction loop of AnyNet.__init__ (lines 482-487): threads the
previous width through the list of (d, w, s, b, g) stage tuples and returns
the built stages together with the final width fed to the head. -/
def AnyNet_stages (bk : BlockKind) (prev_w : ℤ) (cfg : List (ℕ × ℤ × ℕ × ℚ × ℤ))
    (se_r : ℚ) (eps mom : ℚ) : List (List BlockM) × ℤ :=
  match cfg with
  | [] => ([], prev_w)
  | (d, w, s, b, g) :: rest =>
      let st := AnyStage_blocks bk prev_w w s d ⟨b, g, se_r⟩ eps mom
      let r := AnyNet_stages bk w rest se_r eps mom
      (st :: r.1, r.2)

/-- Shallow embedding of AnyNet.__init__ (lines 472-488).  The stem and
block constructors are resolved first (lines 477-478), before any structural
node is built, so an unknown tag aborts assembly with nothing constructed.
anynet_get_params fixes se_r = 0 (line 468) and the stem is always built on
3 input channels (line 479).  The stage configuration is the zip of
(depths, widths, strides, bot_muls, group_ws); the falsy-list replacement of
lines 465-466 is not modelled because the callers below always supply full
lists. -/
def AnyNet_init (depths : List ℕ) (stem_type : String) (stem_w : ℤ) (block_type : String)
    (widths : List ℤ) (strides : List ℕ) (bot_muls : List ℚ) (group_ws : List ℤ)
    (head_w : ℤ) (num_classes : ℤ) (eps mom : ℚ) : Except RegNetError AnyNetModel := do
  let sk ← get_stem_fun stem_type
  let bk ← get_block_fun block_type
  let stem := Stem_init sk 3 stem_w eps mom
  let cfg : List (ℕ × ℤ × ℕ × ℚ × ℤ) :=
    depths.zip (widths.zip (strides.zip (bot_muls.zip group_ws)))
  let r := AnyNet_stages bk stem_w cfg 0 eps mom
  pure ⟨stem, r.1, AnyHead_init r.2 head_w num_classes eps mom⟩

/-- Cost traversal of the stage sequence, threading the previous width like
the constructor loop. -/
def AnyNet_stages_cx (cx : Cx) (bk : BlockKind) (prev_w : ℤ)
    (cfg : List (ℕ × ℤ × ℕ × ℚ × ℤ)) (se_r : ℚ) : Cx × ℤ :=
  match cfg with
  | [] => (cx, prev_w)
  | (d, w, s, b, g) :: rest =>
      AnyNet_stages_cx (AnyStage_cx cx prev_w w s d bk ⟨b, g, se_r⟩) bk w rest se_r

/-- Modelled from the spec: the source defines no AnyNet-level complexity
method; per section 4.5 the accountant starts from the true input resolution
and applies the stem rule, each stage's rule and the head rule in
construction order (se_r = 0 as fixed by anynet_get_params). -/
def AnyNet_cx (cx : Cx) (sk : StemKind) (bk : BlockKind) (stem_w : ℤ)
    (cfg : List (ℕ × ℤ × ℕ × ℚ × ℤ)) (head_w num_classes : ℤ) : Cx :=
  let cx1 := Stem_cx sk cx 3 stem_w
  let r := AnyNet_stages_cx cx1 bk stem_w cfg 0
  AnyHead_cx r.1 r.2 head_w num_classes

/-- Spatial size after the stage sequence. -/
def AnyNet_stages_shape (bk : BlockKind) (cfg : List (ℕ × ℤ × ℕ × ℚ × ℤ))
    (hw : ℕ × ℕ) : ℕ × ℕ :=
  match cfg with
  | [] => hw
  | (d, _, s, _, _) :: rest => AnyNet_stages_shape bk rest (AnyStage_shape bk s d hw)

/-- True output spatial size of the assembled network: stem, then stages,
then head, by the construct methods (lines 490-495). -/
def AnyNet_shape (sk : StemKind) (bk : BlockKind) (cfg : List (ℕ × ℤ × ℕ × ℚ × ℤ))
    (head_w : ℤ) (hw : ℕ × ℕ) : ℕ × ℕ :=
  AnyHead_shape head_w (AnyNet_stages_shape bk cfg (Stem_shape sk hw))

/- --------------------------- RegNet (lines 498-539) --------------------------- -/

/-- Shallow embedding of generate_regnet_full (lines 172-179): quantized
widths and depths, then the single user stride/ratio/group broadcast across
all stages, then the compatibility adjustment. -/
noncomputable def generate_regnet_full (wa : ℝ) (w0 : ℕ) (wm : ℝ) (d : ℕ) (stride : ℕ)
    (bot_mul : ℚ) (group_w : ℤ) :
    Except RegNetError (List ℤ × List ℕ × List ℕ × List ℚ × List ℤ) := do
  let r ← generate_regnet wa w0 wm d 8
  let ws := r.1
  let ds := r.2.1
  let ss := ws.map fun _ => stride
  let bs := ws.map fun _ => bot_mul
  let gs := ws.map fun _ => group_w
  let a ← adjust_block_compatibility ws bs gs
  pure (a.1, ds, ss, a.2.1, a.2.2)

/-- Shallow embedding of RegNet.__init__ via regnet_get_params
(lines 498-526): derives the stage schedule and assembles the AnyNet. -/
noncomputable def RegNet_init (wa : ℝ) (w0 : ℕ) (wm : ℝ) (d stride : ℕ) (bot_mul : ℚ)
    (group_w : ℤ) (stem_type : String) (stem_w : ℤ) (block_type : String)
    (head_w num_classes : ℤ) (eps mom : ℚ) : Except RegNetError AnyNetModel := do
  let p ← generate_regnet_full wa w0 wm d stride bot_mul group_w
  AnyNet_init p.2.1 stem_type stem_w block_type p.1 p.2.2.1 p.2.2.2.1 p.2.2.2.2
    head_w num_classes eps mom

/-- Shallow embedding of the regnet200mf factory (lines 536-539): the
pretrained, num_classes and in_channels arguments are accepted but never
used; the model is always
RegNet(36.44, 24, 2.49, 13, 2, 1.0, 8, 'simple_stem_in', 32,
'res_bottleneck_block', 0, 1000, 1e-5, 0.9). -/
noncomputable def regnet200mf (pretrained : Bool) (num_classes : ℕ) (in_channels : ℕ) :
    Except RegNetError AnyNetModel :=
  RegNet_init 36.44 24 2.49 13 2 1 8 "simple_stem_in" 32 "res_bottleneck_block" 0 1000
    (1 / 100000) (9 / 10)

/- --------------------------- Claims C5, C6, C8, C10 --------------------------- -/

theorem rhe_zero : rhe (0 : ℚ) = 0 := by
  have h := rhe_intCast 0
  simpa using h

/-- C5 counterexample: the claim as stated is false.  With w_in = 1 and
squeeze_excite_ratio = 1/4 > 0, the constructor computes
w_se = int(round(1 * 0.25)) = 0 and builds no squeeze-excite gate, so
presence of the gate is not equivalent to squeeze_excite_ratio > 0. -/
theorem bottleneck_se_absent_with_positive_ratio :
    (0 : ℚ) < 1 / 4
    ∧ (BottleneckTransform_init 1 8 1 ⟨1, 8, 1 / 4⟩ (1 / 100000) (9 / 10)).se = none := by
  decide

/-- C5 (amended): the squeeze-excite gate of a residual-bottleneck transform
is present iff int(round(w_in * squeeze_excite_ratio)) is nonzero (not iff
the ratio is positive); in particular with squeeze_excite_ratio = 0 the gate
is absent and the cost accountant's counts equal those of the gate-free
primitive sequence, excluding any squeeze-excite contribution. -/
theorem bottleneck_se_presence (w_in w_out : ℤ) (stride : ℕ) (b : ℚ) (g : ℤ) (se_r : ℚ)
    (eps mom : ℚ) :
    ((BottleneckTransform_init w_in w_out stride ⟨b, g, se_r⟩ eps mom).se.isSome
      ↔ rhe ((w_in : ℚ) * se_r) ≠ 0)
    ∧ (BottleneckTransform_init w_in w_out stride ⟨b, g, 0⟩ eps mom).se = none
    ∧ ∀ cx : Cx,
        BottleneckTransform_cx cx w_in w_out stride ⟨b, g, 0⟩
          = norm2d_cx
              (conv2d_cx
                (norm2d_cx
                  (conv2d_cx
                    (norm2d_cx (conv2d_cx cx w_in (rhe ((w_out : ℚ) * b)) 1 1 1 false)
                      (rhe ((w_out : ℚ) * b)))
                    (rhe ((w_out : ℚ) * b)) (rhe ((w_out : ℚ) * b)) 3 stride
                    (Int.fdiv (rhe ((w_out : ℚ) * b)) g) false)
                  (rhe ((w_out : ℚ) * b)))
                (rhe ((w_out : ℚ) * b)) w_out 1 1 1 false)
              w_out := by
  have hz : rhe ((w_in : ℚ) * (0 : ℚ)) = 0 := by rw [mul_zero, rhe_zero]
  refine ⟨?_, ?_, ?_⟩
  · unfold BottleneckTransform_init
    by_cases h : rhe ((w_in : ℚ) * se_r) ≠ 0 <;> simp [h]
  · unfold BottleneckTransform_init
    simp [hz, rhe_zero]
  · intro cx
    unfold BottleneckTransform_cx
    simp [hz, rhe_zero]

/-- C6: in the residual-basic and residual-bottleneck blocks a learned
projection shortcut (1x1 conv followed by BN) is created exactly when the
input width differs from the output width or the stride differs from 1;
otherwise the shortcut is the identity, and the output is always
activate(shortcut(x) + transform(x)). -/
theorem residual_shortcut_rule (w_in w_out : ℤ) (stride : ℕ) (p : BParams) (eps mom : ℚ) :
    ((ResBasicBlock_init w_in w_out stride eps mom).proj.isSome
      ↔ (w_in ≠ w_out ∨ stride ≠ 1))
    ∧ ((ResBottleneckBlock_init w_in w_out stride p eps mom).proj.isSome
      ↔ (w_in ≠ w_out ∨ stride ≠ 1))
    ∧ (∀ x : TExpr,
        ResBasicBlock_construct (ResBasicBlock_init w_in w_out stride eps mom) x
          = .relu (.add
              (if w_in ≠ w_out ∨ stride ≠ 1 then
                .bn ⟨w_out, eps, mom⟩ (.conv (conv2d w_in w_out 1 stride 1 false) x)
              else x)
              (BasicTransform_construct (BasicTransform_init w_in w_out stride eps mom) x)))
    ∧ (∀ x : TExpr,
        ResBottleneckBlock_construct (ResBottleneckBlock_init w_in w_out stride p eps mom) x
          = .relu (.add
              (if w_in ≠ w_out ∨ stride ≠ 1 then
                .bn ⟨w_out, eps, mom⟩ (.conv (conv2d w_in w_out 1 stride 1 false) x)
              else x)
              (BottleneckTransform_construct
                (BottleneckTransform_init w_in w_out stride p eps mom) x))) := by
  by_cases h : w_in ≠ w_out ∨ stride ≠ 1
  · refine ⟨?_, ?_, ?_, ?_⟩ <;>
      simp [ResBasicBlock_init, ResBottleneckBlock_init, ResBasicBlock_construct,
        ResBottleneckBlock_construct, h]
  · refine ⟨?_, ?_, ?_, ?_⟩ <;>
      simp [ResBasicBlock_init, ResBottleneckBlock_init, ResBasicBlock_construct,
        ResBottleneckBlock_construct, h]

/-- C8: an unknown block-kind tag such as "bogus" fails block-vocabulary
lookup with UnknownBlockKind, an unknown stem kind fails with
UnknownStemKind, and assembling an AnyNet with block kind "bogus" (and a
valid stem kind) aborts with UnknownBlockKind before any structural node is
built: the constructors are resolved before the stem, stages or head exist. -/
theorem unknown_kind_errors :
    get_block_fun "bogus" = .error (.UnknownBlockKind "bogus")
    ∧ get_stem_fun "bogus" = .error (.UnknownStemKind "bogus")
    ∧ ∀ (depths : List ℕ) (stem_w : ℤ) (widths : List ℤ) (strides : List ℕ)
        (bot_muls : List ℚ) (group_ws : List ℤ) (head_w num_classes : ℤ) (eps mom : ℚ),
        AnyNet_init depths "simple_stem_in" stem_w "bogus" widths strides bot_muls
          group_ws head_w num_classes eps mom = .error (.UnknownBlockKind "bogus") :=
  ⟨rfl, rfl, fun _ _ _ _ _ _ _ _ _ _ => rfl⟩

/-- C10: every call of the regnet200mf factory builds the same fixed
configuration — RegNet(36.44, 24, 2.49, 13, stride 2, ratio 1.0, group 8,
simple stem of width 32, bottleneck blocks, head width 0, 1000 classes) —
and its pretrained, num_classes and in_channels arguments have no effect on
the constructed model. -/
theorem regnet200mf_constant (p p' : Bool) (n n' c c' : ℕ) :
    regnet200mf p n c = regnet200mf p' n' c'
    ∧ regnet200mf p n c
        = RegNet_init 36.44 24 2.49 13 2 1 8 "simple_stem_in" 32 "res_bottleneck_block"
            0 1000 (1 / 100000) (9 / 10) :=
  ⟨rfl, rfl⟩

/- ------------------------------- Claim C4 ------------------------------- -/

theorem convOut_odd (h k s : ℕ) (hk : k % 2 = 1) : convOut h k s ((k - 1) / 2) = (h - 1) / s + 1 := by
  unfold convOut
  have h1 : h + 2 * ((k - 1) / 2) - k = h - 1 := by omega
  rw [h1]

theorem conv2d_shape_odd (k s : ℕ) (hk : k % 2 = 1) (hw : ℕ × ℕ) :
    conv2d_shape k s hw = ((hw.1 - 1) / s + 1, (hw.2 - 1) / s + 1) := by
  unfold conv2d_shape
  rw [convOut_odd hw.1 k s hk, convOut_odd hw.2 k s hk]

theorem pool2d_shape_odd (k s : ℕ) (hk : k % 2 = 1) (hw : ℕ × ℕ) :
    pool2d_shape k s hw = ((hw.1 - 1) / s + 1, (hw.2 - 1) / s + 1) := by
  unfold pool2d_shape
  rw [convOut_odd hw.1 k s hk, convOut_odd hw.2 k s hk]

theorem conv2d_shape_1 (s : ℕ) (hw : ℕ × ℕ) :
    conv2d_shape 1 s hw = ((hw.1 - 1) / s + 1, (hw.2 - 1) / s + 1) :=
  conv2d_shape_odd 1 s (by norm_num) hw

theorem conv2d_shape_3 (s : ℕ) (hw : ℕ × ℕ) :
    conv2d_shape 3 s hw = ((hw.1 - 1) / s + 1, (hw.2 - 1) / s + 1) :=
  conv2d_shape_odd 3 s (by norm_num) hw

theorem conv2d_shape_7 (s : ℕ) (hw : ℕ × ℕ) :
    conv2d_shape 7 s hw = ((hw.1 - 1) / s + 1, (hw.2 - 1) / s + 1) :=
  conv2d_shape_odd 7 s (by norm_num) hw

theorem pool2d_shape_3 (s : ℕ) (hw : ℕ × ℕ) :
    pool2d_shape 3 s hw = ((hw.1 - 1) / s + 1, (hw.2 - 1) / s + 1) :=
  pool2d_shape_odd 3 s (by norm_num) hw

theorem Stem_cx_shape (sk : StemKind) (cx : Cx) (w_in w_out : ℤ) :
    ((Stem_cx sk cx w_in w_out).h, (Stem_cx sk cx w_in w_out).w) = Stem_shape sk (cx.h, cx.w) := by
  cases sk <;>
    simp [Stem_cx, Stem_shape, ResStemCifar_cx, ResStem_cx, SimpleStem_cx,
      ResStemCifar_shape, ResStem_shape, SimpleStem_shape,
      conv2d_shape_3, conv2d_shape_7, pool2d_shape_3,
      conv2d_cx, norm2d_cx, pool2d_cx]

theorem BottleneckTransform_cx_shape (cx : Cx) (w_in w_out : ℤ) (stride : ℕ) (p : BParams) :
    ((BottleneckTransform_cx cx w_in w_out stride p).h,
      (BottleneckTransform_cx cx w_in w_out stride p).w)
      = BottleneckTransform_shape stride (cx.h, cx.w) := by
  unfold BottleneckTransform_cx BottleneckTransform_shape
  by_cases hse : rhe ((w_in : ℚ) * p.se_r) ≠ 0 <;>
    simp [hse, SE_cx, SE_shape, gap2d_cx, conv2d_cx, norm2d_cx,
      conv2d_shape_1, conv2d_shape_3]

theorem Block_cx_shape (bk : BlockKind) (cx : Cx) (w_in w_out : ℤ) (stride : ℕ) (p : BParams) :
    ((Block_cx bk cx w_in w_out stride p).h, (Block_cx bk cx w_in w_out stride p).w)
      = Block_shape bk stride (cx.h, cx.w) := by
  cases bk with
  | vanilla_block =>
      simp [Block_cx, Block_shape, VanillaBlock_cx, VanillaBlock_shape,
        conv2d_cx, norm2d_cx, conv2d_shape_3]
  | res_basic_block =>
      simp only [Block_cx, Block_shape, ResBasicBlock_cx, ResBasicBlock_shape]
      by_cases hp : w_in ≠ w_out ∨ stride ≠ 1 <;>
        simp [hp, BasicTransform_cx, BasicTransform_shape, conv2d_cx, norm2d_cx,
          conv2d_shape_3]
  | res_bottleneck_block =>
      simp only [Block_cx, Block_shape, ResBottleneckBlock_cx, ResBottleneckBlock_shape]
      by_cases hp : w_in ≠ w_out ∨ stride ≠ 1
      · simpa [hp, norm2d_cx, conv2d_cx] using
          BottleneckTransform_cx_shape
            ⟨cx.h, cx.w,
              (norm2d_cx (conv2d_cx cx w_in w_out 1 stride 1 false) w_out).flops,
              (norm2d_cx (conv2d_cx cx w_in w_out 1 stride 1 false) w_out).params,
              (norm2d_cx (conv2d_cx cx w_in w_out 1 stride 1 false) w_out).acts⟩
            w_in w_out stride p
      · simpa [hp] using BottleneckTransform_cx_shape cx w_in w_out stride p
  | res_bottleneck_linear_block =>
      simpa [Block_cx, Block_shape, ResBottleneckLinearBlock_cx,
        ResBottleneckLinearBlock_shape] using
        BottleneckTransform_cx_shape cx w_in w_out stride p

theorem AnyStage_cx_shape (d : ℕ) :
    ∀ (cx : Cx) (w_in w_out : ℤ) (stride : ℕ) (bk : BlockKind) (p : BParams),
      ((AnyStage_cx cx w_in w_out stride d bk p).h, (AnyStage_cx cx w_in w_out stride d bk p).w)
        = AnyStage_shape bk stride d (cx.h, cx.w) := by
  induction d with
  | zero => intro cx w_in w_out stride bk p; rfl
  | succ d ih =>
      intro cx w_in w_out stride bk p
      show ((AnyStage_cx (Block_cx bk cx w_in w_out stride p) w_out w_out 1 d bk p).h,
          (AnyStage_cx (Block_cx bk cx w_in w_out stride p) w_out w_out 1 d bk p).w)
        = AnyStage_shape bk 1 d (Block_shape bk stride (cx.h, cx.w))
      rw [ih (Block_cx bk cx w_in w_out stride p) w_out w_out 1 bk p,
        Block_cx_shape bk cx w_in w_out stride p]

theorem AnyHead_cx_shape (cx : Cx) (w_in head_width num_classes : ℤ) :
    ((AnyHead_cx cx w_in head_width num_classes).h,
      (AnyHead_cx cx w_in head_width num_classes).w)
      = AnyHead_shape head_width (cx.h, cx.w) := by
  by_cases h : 0 < head_width <;>
    simp [AnyHead_cx, AnyHead_shape, h, linear_cx, gap2d_cx, norm2d_cx, conv2d_cx,
      gap2d_shape]

theorem AnyNet_stages_cx_shape (cfg : List (ℕ × ℤ × ℕ × ℚ × ℤ)) :
    ∀ (cx : Cx) (bk : BlockKind) (prev_w : ℤ) (se_r : ℚ),
      (((AnyNet_stages_cx cx bk prev_w cfg se_r).1).h,
        ((AnyNet_stages_cx cx bk prev_w cfg se_r).1).w)
        = AnyNet_stages_shape bk cfg (cx.h, cx.w) := by
  induction cfg with
  | nil => intro cx bk prev_w se_r; rfl
  | cons t rest ih =>
      intro cx bk prev_w se_r
      obtain ⟨d, w, s, b, g⟩ := t
      show (((AnyNet_stages_cx (AnyStage_cx cx prev_w w s d bk ⟨b, g, se_r⟩) bk w rest se_r).1).h,
          ((AnyNet_stages_cx (AnyStage_cx cx prev_w w s d bk ⟨b, g, se_r⟩) bk w rest se_r).1).w)
        = AnyNet_stages_shape bk rest (AnyStage_shape bk s d (cx.h, cx.w))
      rw [ih (AnyStage_cx cx prev_w w s d bk ⟨b, g, se_r⟩) bk w se_r,
        AnyStage_cx_shape d cx prev_w w s bk ⟨b, g, se_r⟩]

theorem AnyNet_cx_shape (cx : Cx) (sk : StemKind) (bk : BlockKind) (stem_w : ℤ)
    (cfg : List (ℕ × ℤ × ℕ × ℚ × ℤ)) (head_w num_classes : ℤ) :
    ((AnyNet_cx cx sk bk stem_w cfg head_w num_classes).h,
      (AnyNet_cx cx sk bk stem_w cfg head_w num_classes).w)
      = AnyNet_shape sk bk cfg head_w (cx.h, cx.w) := by
  unfold AnyNet_cx AnyNet_shape
  have h1 := Stem_cx_shape sk cx 3 stem_w
  have h2 := AnyNet_stages_cx_shape cfg (Stem_cx sk cx 3 stem_w) bk stem_w 0
  have h3 := AnyHead_cx_shape ((AnyNet_stages_cx (Stem_cx sk cx 3 stem_w) bk stem_w cfg 0).1)
    ((AnyNet_stages_cx (Stem_cx sk cx 3 stem_w) bk stem_w cfg 0).2) head_w num_classes
  rw [h3, h2, h1]

/-- C4: the cost interpreter and the build interpreter never diverge on
spatial shape.  For every stem kind, block kind, block parameters, stage
schedule, head width and cost state (whose (h, w) is the true input
resolution), the (h, w) of the cost state after applying the stem rule, any
block rule, any stage rule, the head rule, or the full network traversal in
construction order equals the true output spatial size of the corresponding
built structure, as given by the external operator shape contract. -/
theorem cost_shape_consistency (sk : StemKind) (bk : BlockKind)
    (cfg : List (ℕ × ℤ × ℕ × ℚ × ℤ)) (cx : Cx)
    (w_in w_out stem_w head_w num_classes : ℤ) (stride d : ℕ) (p : BParams) :
    (((Stem_cx sk cx w_in stem_w).h, (Stem_cx sk cx w_in stem_w).w)
        = Stem_shape sk (cx.h, cx.w))
    ∧ (((Block_cx bk cx w_in w_out stride p).h, (Block_cx bk cx w_in w_out stride p).w)
        = Block_shape bk stride (cx.h, cx.w))
    ∧ (((AnyStage_cx cx w_in w_out stride d bk p).h,
          (AnyStage_cx cx w_in w_out stride d bk p).w)
        = AnyStage_shape bk stride d (cx.h, cx.w))
    ∧ (((AnyHead_cx cx w_in head_w num_classes).h, (AnyHead_cx cx w_in head_w num_classes).w)
        = AnyHead_shape head_w (cx.h, cx.w))
    ∧ (((AnyNet_cx cx sk bk stem_w cfg head_w num_classes).h,
          (AnyNet_cx cx sk bk stem_w cfg head_w num_classes).w)
        = AnyNet_shape sk bk cfg head_w (cx.h, cx.w)) :=
  ⟨Stem_cx_shape sk cx w_in stem_w,
   Block_cx_shape bk cx w_in w_out stride p,
   AnyStage_cx_shape d cx w_in w_out stride bk p,
   AnyHead_cx_shape cx w_in head_w num_classes,
   AnyNet_cx_shape cx sk bk stem_w cfg head_w num_classes⟩

end RegNetSpec
